import Mathlib

/-!
# Verification of the browse pipeline of `src/api/routes/edition.js`

Shallow embedding of the browse endpoint `GET /edition` of the
bookbrainz-site API edition router, together with the filter predicate
`relationshipsFilterMethod` defined inside its handler.

JavaScript conventions are made explicit:
* a possibly-`undefined`/`null` string field is `Option String`;
* lodash `_.toLower` coerces `undefined`/`null` to the empty string;
* a computation that can throw a `TypeError` returns `Option _`
  (`none` = the evaluation threw);
* `Array.prototype.filter` with a possibly-throwing callback is the
  `Option`-monadic filter `jsFilter`.
-/

/-- lodash `_.toLower` on a string: character-wise lower-casing. -/
def toLowerStr (s : String) : String :=
  ⟨s.data.map Char.toLower⟩

/-- lodash `_.toLower` applied to a possibly-absent value:
`_.toLower(undefined)` and `_.toLower(null)` are `''`. -/
def jsToLower : Option String → String
  | none => ""
  | some s => toLowerStr s

/-- lodash `_.upperFirst`: upper-case the first character, keep the rest. -/
def upperFirst (s : String) : String :=
  match s.data with
  | [] => ""
  | c :: cs => ⟨c.toUpper :: cs⟩

/-- JavaScript truthiness of an optional string query parameter:
`undefined` and `''` are falsy, every other string is truthy. -/
def strTruthy : Option String → Bool
  | none => false
  | some s => !s.isEmpty

/-- The pair of optional filter criteria read off `req.query`
(`req.query.format`, `req.query.language`). -/
structure BrowseQuery where
  format : Option String
  language : Option String
deriving DecidableEq

/-- The public field subset of an Edition produced by the basic-info
projector (`EditionDetail` in the swagger definitions of
`src/api/routes/edition.js`): the fields the browse pipeline reads.
Optional fields are `Option` because the projector nulls absent data. -/
structure EntityProjection where
  bbid : String
  defaultAlias : Option String
  disambiguation : Option String
  editionFormat : Option String
  status : Option String
  languages : Option (List String)
  releaseEventDate : Option String
deriving DecidableEq

/-- `relationshipsFilterMethod` from the `router.get('/')` handler of
`src/api/routes/edition.js`, lines 302–316, translated clause by clause:

```js
function relationshipsFilterMethod(relatedEntity) {
  if (req.query.format) {
    const editionFormatMatched =
      _.toLower(relatedEntity.editionFormat) === _.toLower(req.query.format);
    if (req.query.language) {
      const editionLanguageMatched = relatedEntity.languages.includes(
        _.upperFirst(_.toLower(req.query.language)));
      return editionFormatMatched && editionLanguageMatched;
    }
    return editionFormatMatched;
  }
  else if (req.query.language) {
    const editionLanguageMatched = relatedEntity.languages.includes(
      _.upperFirst(_.toLower(req.query.language)));
    return editionLanguageMatched;
  }
  return true;
}
```

`relatedEntity.languages.includes(...)` throws a `TypeError` when
`languages` is `undefined`; that evaluation path is `none`. -/
def relationshipsFilterMethod (q : BrowseQuery) (relatedEntity : EntityProjection) :
    Option Bool :=
  if strTruthy q.format then
    let editionFormatMatched :=
      jsToLower relatedEntity.editionFormat == jsToLower q.format
    if strTruthy q.language then
      match relatedEntity.languages with
      | none => none
      | some langs =>
        let editionLanguageMatched :=
          langs.contains (upperFirst (jsToLower q.language))
        some (editionFormatMatched && editionLanguageMatched)
    else
      some editionFormatMatched
  else if strTruthy q.language then
    match relatedEntity.languages with
    | none => none
    | some langs =>
      some (langs.contains (upperFirst (jsToLower q.language)))
  else
    some true

/-- `Array.prototype.filter` with a callback that can throw: the callback
is evaluated left to right and the first throw aborts the whole filter. -/
def jsFilter {α : Type} (p : α → Option Bool) : List α → Option (List α)
  | [] => some []
  | x :: xs => do
    let b ← p x
    let rest ← jsFilter p xs
    pure (if b then x :: rest else rest)

/-- A hydrated entity record as loaded from storage with the
`editionBasicRelations` eager-load set of `src/api/routes/edition.js`
(default alias + language, disambiguation, format, status, release
events): the fields the downstream projection reads. -/
structure Entity where
  bbid : String
  defaultAlias : Option String
  disambiguation : Option String
  editionFormat : Option String
  status : Option String
  languages : Option (List String)
  releaseEventDate : Option String
deriving DecidableEq

/-- Modelled from the spec: `getEditionBasicInfo`
(`src/api/helpers/formatEntityData.js`, not under `src/`) — the
basic-info projector, a "pure mapping `Entity -> EntityProjection`" that
"must tolerate partially-absent optional fields … by omitting or
null-ing them, never throwing" (§4.2): the public field subset of the
hydrated entity. -/
def getEditionBasicInfo (e : Entity) : EntityProjection :=
  { bbid := e.bbid
    defaultAlias := e.defaultAlias
    disambiguation := e.disambiguation
    editionFormat := e.editionFormat
    status := e.status
    languages := e.languages
    releaseEventDate := e.releaseEventDate }

/-- A generic relationship edge's metadata: typed, with a
relationship-type id and name. -/
structure RelEdge where
  relationshipTypeID : Nat
  relationshipType : String
deriving DecidableEq

/-- A generic relationship record attached to the anchor: the entity at
the other endpoint, that endpoint's kind, and the edge metadata. -/
structure GenericRel where
  target : Entity
  targetKind : String
  edge : RelEdge
deriving DecidableEq

/-- The `relationship` field of a browse record: either the metadata of
a generic typed edge, or the empty object `{}` that the two special-case
branches of `src/api/routes/edition.js` push
(`editionRelationshipList.push({entity: filteredEdition, relationship: {}})`). -/
inductive RelValue where
  | edge (e : RelEdge)
  | empty
deriving DecidableEq

/-- The uniform output unit of a browse response:
`{entity, relationship}`. -/
structure BrowseRecord where
  entity : EntityProjection
  relationship : RelValue
deriving DecidableEq

/-- Modelled from the spec: `utils.getBrowsedRelationships`
(`src/api/helpers/utils.js`, not under `src/`) — the generic
relationship resolver plus §4.6 step 4: walk the anchor's relationship
set, keep every edge whose other endpoint is of the target kind
(`'Edition'` here), project each endpoint through the supplied
basic-info projector, apply the supplied filter predicate, and return
`{entity, relationship}` records carrying the edge metadata. -/
def getBrowsedRelationships (q : BrowseQuery) (rels : List GenericRel) :
    Option (List BrowseRecord) := do
  let matching := rels.filter (fun r => r.targetKind == "Edition")
  let kept ← jsFilter (fun r => relationshipsFilterMethod q (getEditionBasicInfo r.target)) matching
  pure (kept.map (fun r => ⟨getEditionBasicInfo r.target, RelValue.edge r.edge⟩))

/-- The JSON of a fetched EditionGroup row with its `editions.*`
relations eager-loaded (`editionGroup.toJSON()` in the EditionGroup
branch): the loaded `editions` collection. -/
structure EditionGroupRow where
  editions : List Entity
deriving DecidableEq

/-- The point-in-time storage reads the browse handler can issue:
the anchor's relationship set loaded by `loadEntityRelationshipsForBrowse`,
the result of the `new EditionGroup({bbid}).fetch({require: false, …})`
read (`none` when storage returns no row), and the result of the
`new Publisher({bbid}).editions({…})` read. -/
structure Storage where
  rels : List GenericRel
  editionGroupFetch : Option EditionGroupRow
  publisherEditions : List Entity
deriving DecidableEq

/-- The query-parameter state the browse handler reads:
`req.query.modelType` (set by the query middleware to the anchor's
kind), `req.query.bbid` (the anchor id), and the two filter criteria. -/
structure BrowseState where
  modelType : Option String
  bbid : String
  format : Option String
  language : Option String
deriving DecidableEq

/-- The filter criteria of a browse request. -/
def BrowseState.query (q : BrowseState) : BrowseQuery :=
  ⟨q.format, q.language⟩

/-- The `200` response body of `GET /edition`:
`{bbid: req.query.bbid, editions: editionRelationshipList}`. -/
structure BrowseResponse where
  bbid : String
  editions : List BrowseRecord
deriving DecidableEq

/-- The browse orchestrator: the `router.get('/')` handler of
`src/api/routes/edition.js`, lines 296–360, translated statement by
statement.

1. `editionRelationshipList = await utils.getBrowsedRelationships(...)`;
2. if `req.query.modelType === 'EditionGroup'`: fetch the EditionGroup
   with `require: false`; `editionGroupJSON = editionGroup ?
   editionGroup.toJSON() : {}`; destructure `{editions}` — `undefined`
   when the fetch returned no row, so the subsequent `editions.map(...)`
   throws a `TypeError` (the `none` branch); otherwise project, filter,
   and push `{entity, relationship: {}}` records onto the list;
3. if `req.query.modelType === 'Publisher'`: load the publisher's
   editions, project, filter, and push `{entity, relationship: {}}`
   records onto the list;
4. respond with `{bbid: req.query.bbid, editions: list}`. -/
def browseEditions (st : Storage) (q : BrowseState) : Option BrowseResponse := do
  let editionRelationshipList ← getBrowsedRelationships q.query st.rels
  let afterEg ←
    if q.modelType = some "EditionGroup" then do
      let editions ←
        match st.editionGroupFetch with
        | some g => some g.editions
        | none => none
      let kept ← jsFilter (relationshipsFilterMethod q.query) (editions.map getEditionBasicInfo)
      pure (editionRelationshipList ++
        kept.map (fun filteredEdition => ⟨filteredEdition, RelValue.empty⟩))
    else
      pure editionRelationshipList
  let afterPub ←
    if q.modelType = some "Publisher" then do
      let kept ← jsFilter (relationshipsFilterMethod q.query)
        (st.publisherEditions.map getEditionBasicInfo)
      pure (afterEg ++ kept.map (fun filteredEdition => ⟨filteredEdition, RelValue.empty⟩))
    else
      pure afterEg
  pure ⟨q.bbid, afterPub⟩

/-- The language criterion as the spec's sentence words it (for
comparison with the source's test): the candidate passes when its
language list contains a name equal case-insensitively to the supplied
value. -/
def languageTestClaimed (lang : String) (langs : List String) : Bool :=
  langs.any (fun n => toLowerStr n == toLowerStr lang)

/-! ## Basic lemmas about the JavaScript string helpers -/

theorem toLowerStr_eq_empty_iff (s : String) : toLowerStr s = "" ↔ s = "" := by
  constructor
  · intro h
    apply String.ext
    have := congrArg String.data h
    simpa [toLowerStr] using this
  · intro h
    subst h
    rfl

theorem strTruthy_some_iff (s : String) : strTruthy (some s) = true ↔ s ≠ "" := by
  constructor
  · intro h he
    subst he
    exact absurd h (by decide)
  · intro h
    simp only [strTruthy, Bool.not_eq_true']
    cases hse : s.isEmpty
    · rfl
    · exact absurd ((String.isEmpty_iff s).mp hse) h

theorem strTruthy_none : strTruthy none = false := rfl

/-! ## Lemmas about the `Option`-monadic array filter -/

theorem jsFilter_nil {α : Type} (p : α → Option Bool) : jsFilter p [] = some [] := rfl

theorem jsFilter_cons {α : Type} (p : α → Option Bool) (a : α) (as : List α) :
    jsFilter p (a :: as) =
      (p a).bind fun b => (jsFilter p as).bind fun rest =>
        some (if b then a :: rest else rest) := rfl

/-- Every survivor of a filter pass was accepted by the callback and was
in the input list. -/
theorem jsFilter_sound {α : Type} (p : α → Option Bool) :
    ∀ (l r : List α), jsFilter p l = some r → ∀ x ∈ r, p x = some true ∧ x ∈ l := by
  intro l
  induction l with
  | nil =>
    intro r h x hx
    rw [jsFilter_nil] at h
    cases h
    cases hx
  | cons a as ih =>
    intro r h x hx
    rw [jsFilter_cons] at h
    rcases hpa : p a with _ | b
    · rw [hpa] at h; cases h
    · rw [hpa] at h
      rcases hrest : jsFilter p as with _ | rest
      · rw [hrest] at h; cases h
      · rw [hrest] at h
        simp only [Option.some_bind, Option.some.injEq] at h
        cases b with
        | true =>
          subst h
          rw [if_pos rfl, List.mem_cons] at hx
          rcases hx with rfl | hx
          · exact ⟨hpa, List.mem_cons_self _ _⟩
          · rcases ih rest hrest x hx with ⟨h1, h2⟩
            exact ⟨h1, List.mem_cons_of_mem _ h2⟩
        | false =>
          subst h
          rw [if_neg (by decide)] at hx
          rcases ih rest hrest x hx with ⟨h1, h2⟩
          exact ⟨h1, List.mem_cons_of_mem _ h2⟩

/-- A list every element of which the callback accepts filters to itself. -/
theorem jsFilter_of_all_true {α : Type} (p : α → Option Bool) :
    ∀ (l : List α), (∀ x ∈ l, p x = some true) → jsFilter p l = some l := by
  intro l
  induction l with
  | nil => intro _; rfl
  | cons a as ih =>
    intro h
    rw [jsFilter_cons, h a (by simp), ih (fun x hx => h x (by simp [hx]))]
    rfl

/-- Callbacks that agree on the list give the same filter result. -/
theorem jsFilter_congr {α : Type} (p₁ p₂ : α → Option Bool) :
    ∀ (l : List α), (∀ x ∈ l, p₁ x = p₂ x) → jsFilter p₁ l = jsFilter p₂ l := by
  intro l
  induction l with
  | nil => intro _; rfl
  | cons a as ih =>
    intro h
    rw [jsFilter_cons, jsFilter_cons, h a (by simp),
      ih (fun x hx => h x (by simp [hx]))]

/-! ## Lemmas about the filter predicate -/

/-- With no criteria the predicate accepts everything. -/
theorem relationshipsFilterMethod_no_criteria (q : BrowseQuery) (e : EntityProjection)
    (hf : q.format = none) (hl : q.language = none) :
    relationshipsFilterMethod q e = some true := by
  simp [relationshipsFilterMethod, hf, hl, strTruthy]

/-- A well-formed projection (language list present) is always decided. -/
theorem relationshipsFilterMethod_total (q : BrowseQuery) (e : EntityProjection)
    (L : List String) (hL : e.languages = some L) :
    ∃ b : Bool, relationshipsFilterMethod q e = some b := by
  cases hf : strTruthy q.format <;> cases hl : strTruthy q.language <;>
    simp [relationshipsFilterMethod, hf, hl, hL]

/-! ## Lemmas about the resolvers and the orchestrator -/

/-- Inversion for the generic resolver: every record it returns passed
the predicate, is a projection, and carries a typed edge. -/
theorem getBrowsedRelationships_sound (q : BrowseQuery) (rels : List GenericRel)
    (base : List BrowseRecord) (h : getBrowsedRelationships q rels = some base) :
    ∀ rec ∈ base, relationshipsFilterMethod q rec.entity = some true ∧
      (∃ ent : Entity, rec.entity = getEditionBasicInfo ent) ∧
      ∃ ed : RelEdge, rec.relationship = RelValue.edge ed := by
  intro rec hrec
  rcases hk : jsFilter (fun r => relationshipsFilterMethod q (getEditionBasicInfo r.target))
      (rels.filter (fun r => r.targetKind == "Edition")) with _ | kept
  · simp [getBrowsedRelationships, hk] at h
  · simp only [getBrowsedRelationships, hk, Option.bind_eq_bind, Option.some_bind,
      Option.pure_def, Option.some.injEq] at h
    subst h
    rw [List.mem_map] at hrec
    rcases hrec with ⟨r, hr, rfl⟩
    rcases jsFilter_sound _ _ _ hk r hr with ⟨htrue, _⟩
    exact ⟨htrue, ⟨r.target, rfl⟩, ⟨r.edge, rfl⟩⟩

/-- When the anchor kind is neither EditionGroup nor Publisher, the
response is exactly the generic resolver's output under the anchor id. -/
theorem browseEditions_generic_only (st : Storage) (q : BrowseState)
    (base : List BrowseRecord)
    (hm1 : q.modelType ≠ some "EditionGroup") (hm2 : q.modelType ≠ some "Publisher")
    (hb : getBrowsedRelationships q.query st.rels = some base) :
    browseEditions st q = some ⟨q.bbid, base⟩ := by
  simp [browseEditions, hb, hm1, hm2]

/-- EditionGroup anchor with a fetched row: generic records first, then
the filtered member editions with the synthesized empty relationship. -/
theorem browseEditions_editionGroup (st : Storage) (q : BrowseState)
    (g : EditionGroupRow) (base : List BrowseRecord) (kept : List EntityProjection)
    (hm : q.modelType = some "EditionGroup")
    (hf : st.editionGroupFetch = some g)
    (hb : getBrowsedRelationships q.query st.rels = some base)
    (hk : jsFilter (relationshipsFilterMethod q.query)
        (g.editions.map getEditionBasicInfo) = some kept) :
    browseEditions st q =
      some ⟨q.bbid, base ++ kept.map (fun e => ⟨e, RelValue.empty⟩)⟩ := by
  simp [browseEditions, hm, hf, hb, hk]

/-- Publisher anchor: generic records first, then the filtered published
editions with the synthesized empty relationship. -/
theorem browseEditions_publisher (st : Storage) (q : BrowseState)
    (base : List BrowseRecord) (kept : List EntityProjection)
    (hm : q.modelType = some "Publisher")
    (hb : getBrowsedRelationships q.query st.rels = some base)
    (hk : jsFilter (relationshipsFilterMethod q.query)
        (st.publisherEditions.map getEditionBasicInfo) = some kept) :
    browseEditions st q =
      some ⟨q.bbid, base ++ kept.map (fun e => ⟨e, RelValue.empty⟩)⟩ := by
  simp [browseEditions, hm, hb, hk]

/-- Full inversion of a successful browse: the anchor id is echoed, the
records are the generic results followed by the special-case records,
and every special-case record is a filtered projection carrying the
synthesized empty relationship. -/
theorem browseEditions_inv (st : Storage) (q : BrowseState) (resp : BrowseResponse)
    (h : browseEditions st q = some resp) :
    resp.bbid = q.bbid ∧
    ∃ base specials,
      getBrowsedRelationships q.query st.rels = some base ∧
      resp.editions = base ++ specials ∧
      ∃ keptSpecials : List EntityProjection,
        specials = keptSpecials.map (fun e => ⟨e, RelValue.empty⟩) ∧
        ∀ e ∈ keptSpecials, relationshipsFilterMethod q.query e = some true ∧
          ∃ ent : Entity, e = getEditionBasicInfo ent := by
  rcases hb : getBrowsedRelationships q.query st.rels with _ | base
  · simp [browseEditions, hb] at h
  by_cases hEG : q.modelType = some "EditionGroup"
  · rcases hf : st.editionGroupFetch with _ | g
    · simp [browseEditions, hb, hEG, hf] at h
    rcases hk : jsFilter (relationshipsFilterMethod q.query)
        (g.editions.map getEditionBasicInfo) with _ | kept
    · simp [browseEditions, hb, hEG, hf, hk] at h
    rw [browseEditions_editionGroup st q g base kept hEG hf hb hk] at h
    obtain rfl := Option.some.inj h
    refine ⟨rfl, base, kept.map (fun e => ⟨e, RelValue.empty⟩), rfl, rfl, kept, rfl, ?_⟩
    intro e he
    rcases jsFilter_sound _ _ _ hk e he with ⟨htrue, hmem⟩
    rw [List.mem_map] at hmem
    rcases hmem with ⟨ent, _, rfl⟩
    exact ⟨htrue, ent, rfl⟩
  by_cases hP : q.modelType = some "Publisher"
  · rcases hk : jsFilter (relationshipsFilterMethod q.query)
        (st.publisherEditions.map getEditionBasicInfo) with _ | kept
    · simp [browseEditions, hb, hEG, hP, hk] at h
    rw [browseEditions_publisher st q base kept hP hb hk] at h
    obtain rfl := Option.some.inj h
    refine ⟨rfl, base, kept.map (fun e => ⟨e, RelValue.empty⟩), rfl, rfl, kept, rfl, ?_⟩
    intro e he
    rcases jsFilter_sound _ _ _ hk e he with ⟨htrue, hmem⟩
    rw [List.mem_map] at hmem
    rcases hmem with ⟨ent, _, rfl⟩
    exact ⟨htrue, ent, rfl⟩
  · rw [browseEditions_generic_only st q base hEG hP hb] at h
    obtain rfl := Option.some.inj h
    refine ⟨rfl, base, [], rfl, (List.append_nil base).symm, [], rfl, ?_⟩
    intro e he
    cases he

/-- The predicate reads the format criterion only through its truthiness
and its lower-casing. -/
theorem relationshipsFilterMethod_format_congr (f₁ f₂ lang : Option String)
    (e : EntityProjection)
    (ht : strTruthy f₁ = strTruthy f₂) (hl : jsToLower f₁ = jsToLower f₂) :
    relationshipsFilterMethod ⟨f₁, lang⟩ e = relationshipsFilterMethod ⟨f₂, lang⟩ e := by
  simp only [relationshipsFilterMethod, ht, hl]

/-! ## The claims -/

/-- C1: on an `EntityProjection` the browse filter predicate is
case-insensitive string equality of the projection's format name against
the format criterion when only `format` is supplied; the logical AND of
the format test and the language test when both are supplied; and the
constant true predicate when neither is supplied — and consequently
`format=EBOOK` and `format=ebook` filter every candidate list
identically. -/
theorem c1_browse_filter_predicate :
    (∀ (q : BrowseQuery) (e : EntityProjection) (f fn : String),
      q.format = some f → f ≠ "" → q.language = none → e.editionFormat = some fn →
      relationshipsFilterMethod q e = some (toLowerStr fn == toLowerStr f)) ∧
    (∀ (q : BrowseQuery) (e : EntityProjection) (f lang : String) (L : List String),
      q.format = some f → f ≠ "" → q.language = some lang → lang ≠ "" →
      e.languages = some L →
      relationshipsFilterMethod q e =
        some ((jsToLower e.editionFormat == toLowerStr f) &&
          L.contains (upperFirst (toLowerStr lang)))) ∧
    (∀ (q : BrowseQuery) (e : EntityProjection),
      q.format = none → q.language = none →
      relationshipsFilterMethod q e = some true) ∧
    (∀ (l : List EntityProjection) (lang : Option String),
      jsFilter (relationshipsFilterMethod ⟨some "EBOOK", lang⟩) l =
        jsFilter (relationshipsFilterMethod ⟨some "ebook", lang⟩) l) := by
  refine ⟨?_, ?_, ?_, ?_⟩
  · intro q e f fn hf hne hl hfn
    have hT : strTruthy (some f) = true := (strTruthy_some_iff f).mpr hne
    simp [relationshipsFilterMethod, hf, hl, hfn, hT, strTruthy_none, jsToLower]
  · intro q e f lang L hf hne hl hlne hL
    have hT : strTruthy (some f) = true := (strTruthy_some_iff f).mpr hne
    have hlT : strTruthy (some lang) = true := (strTruthy_some_iff lang).mpr hlne
    simp [relationshipsFilterMethod, hT, hlT, hf, hl, hL, jsToLower]
  · intro q e hf hl
    exact relationshipsFilterMethod_no_criteria q e hf hl
  · intro l lang
    exact jsFilter_congr _ _ l (fun x _ =>
      relationshipsFilterMethod_format_congr _ _ _ _ (by decide) (by decide))

/-- Witness for C1: a concrete candidate whose format name is `eBook`
against the criterion `EBOOK`. -/
theorem c1_browse_filter_predicate_witness :
    relationshipsFilterMethod ⟨some "EBOOK", none⟩
        ⟨"e2", none, none, some "eBook", none, some ["English"], none⟩ =
      some (toLowerStr "eBook" == toLowerStr "EBOOK") :=
  c1_browse_filter_predicate.1 ⟨some "EBOOK", none⟩
    ⟨"e2", none, none, some "eBook", none, some ["English"], none⟩
    "EBOOK" "eBook" rfl (by decide) rfl rfl

/-- C6 counterexample: supplied language `english` normalizes to
`English`, and a candidate whose stored language list is `["english"]`
is rejected by the code, although its list does contain a name equal
case-insensitively to the supplied value. -/
theorem c6_language_test_counterexample :
    languageTestClaimed "english" ["english"] = true ∧
    relationshipsFilterMethod ⟨none, some "english"⟩
        ⟨"e1", none, none, none, none, some ["english"], none⟩ = some false := by
  exact ⟨by decide, by decide⟩

/-- C6 amended: the language criterion is exact membership of the
normalized supplied value (first letter upper-cased, remainder
lower-cased) in the projection's language list — insensitive to the
case of the supplied value but not to the case of the stored names. -/
theorem c6_amended_language_membership (q : BrowseQuery) (e : EntityProjection)
    (lang : String) (L : List String)
    (hl : q.language = some lang) (hlne : lang ≠ "") (hL : e.languages = some L) :
    relationshipsFilterMethod q e =
      some ((if strTruthy q.format
              then jsToLower e.editionFormat == jsToLower q.format
              else true) &&
        L.contains (upperFirst (toLowerStr lang))) := by
  have hlT : strTruthy (some lang) = true := (strTruthy_some_iff lang).mpr hlne
  cases hfT : strTruthy q.format <;>
    simp [relationshipsFilterMethod, hfT, hlT, hL, hl, jsToLower]

/-- Witness for the amended C6: supplied value `ENGLISH` is normalized
to `English` and found in the stored list. -/
theorem c6_amended_language_membership_witness :
    relationshipsFilterMethod ⟨none, some "ENGLISH"⟩
        ⟨"e1", none, none, none, none, some ["English"], none⟩ =
      some ((if strTruthy (none : Option String)
              then jsToLower (none : Option String) == jsToLower (none : Option String)
              else true) &&
        ["English"].contains (upperFirst (toLowerStr "ENGLISH"))) :=
  c6_amended_language_membership ⟨none, some "ENGLISH"⟩
    ⟨"e1", none, none, none, none, some ["English"], none⟩
    "ENGLISH" ["English"] rfl (by decide) rfl

/-- C7: on a well-formed projection (language list present) the
predicate always returns a boolean, for every combination of optional
criteria — it never throws. -/
theorem c7_predicate_total_on_wellformed (q : BrowseQuery) (e : EntityProjection)
    (L : List String) (hL : e.languages = some L) :
    ∃ b : Bool, relationshipsFilterMethod q e = some b :=
  relationshipsFilterMethod_total q e L hL

/-- Witness for C7 with both criteria supplied. -/
theorem c7_predicate_total_on_wellformed_witness :
    ∃ b : Bool, relationshipsFilterMethod ⟨some "eBook", some "english"⟩
        ⟨"e1", none, none, some "eBook", none, some ["English"], none⟩ = some b :=
  c7_predicate_total_on_wellformed ⟨some "eBook", some "english"⟩
    ⟨"e1", none, none, some "eBook", none, some ["English"], none⟩ ["English"] rfl

/-- C8: filtering a candidate list with fixed criteria is idempotent —
filtering the result again returns it unchanged (and a throwing first
pass stays a throw). -/
theorem c8_filter_idempotent (q : BrowseQuery) (l : List EntityProjection) :
    (jsFilter (relationshipsFilterMethod q) l).bind (jsFilter (relationshipsFilterMethod q)) =
      jsFilter (relationshipsFilterMethod q) l := by
  rcases h : jsFilter (relationshipsFilterMethod q) l with _ | r
  · rfl
  · exact jsFilter_of_all_true _ r (fun x hx => (jsFilter_sound _ _ _ h x hx).1)

/-- C10: a candidate with no format name is silently excluded by any
non-empty format criterion: its format lower-cases to the empty string,
which never equals the non-empty criterion, so the predicate returns
`false` on well-formed projections, never `true`, and no such candidate
survives a filter pass. -/
theorem c10_absent_format_excluded (q : BrowseQuery) (e : EntityProjection) (f : String)
    (hf : q.format = some f) (hne : f ≠ "") (hfmt : e.editionFormat = none) :
    (∀ L, e.languages = some L → relationshipsFilterMethod q e = some false) ∧
    (∀ b, relationshipsFilterMethod q e = some b → b = false) ∧
    (∀ l r, jsFilter (relationshipsFilterMethod q) l = some r → e ∉ r) := by
  have hT : strTruthy q.format = true := by
    rw [hf]; exact (strTruthy_some_iff f).mpr hne
  have hFM : (jsToLower e.editionFormat == jsToLower q.format) = false := by
    rw [hfmt, hf]
    simp only [jsToLower]
    rw [beq_eq_false_iff_ne]
    intro hcontra
    exact hne ((toLowerStr_eq_empty_iff f).mp hcontra.symm)
  have key : relationshipsFilterMethod q e = some false ∨
      relationshipsFilterMethod q e = none := by
    cases hl : strTruthy q.language
    · left
      simp [relationshipsFilterMethod, hT, hl, hFM]
    · rcases hLs : e.languages with _ | L
      · right
        simp [relationshipsFilterMethod, hT, hl, hLs]
      · left
        simp [relationshipsFilterMethod, hT, hl, hLs, hFM]
  refine ⟨?_, ?_, ?_⟩
  · intro L hL
    cases hl : strTruthy q.language
    · simp [relationshipsFilterMethod, hT, hl, hFM]
    · simp [relationshipsFilterMethod, hT, hl, hL, hFM]
  · intro b hb
    rcases key with hk | hk
    · rw [hk] at hb
      exact (Option.some.inj hb).symm
    · rw [hk] at hb
      cases hb
  · intro l r hfil hmem
    have htrue := (jsFilter_sound _ _ _ hfil e hmem).1
    rcases key with hk | hk
    · rw [hk] at htrue
      exact Bool.noConfusion (Option.some.inj htrue)
    · rw [hk] at htrue
      cases htrue

/-- Witness for C10: a format-less candidate against criterion `eBook`. -/
theorem c10_absent_format_excluded_witness :
    relationshipsFilterMethod ⟨some "eBook", none⟩
        ⟨"x", none, none, none, none, some ["English"], none⟩ = some false :=
  (c10_absent_format_excluded ⟨some "eBook", none⟩
    ⟨"x", none, none, none, none, some ["English"], none⟩
    "eBook" rfl (by decide) rfl).1 ["English"] rfl

/-- C2: candidate resolution is additive — the generic resolver's
records always open the list of every successful response, the
containment (EditionGroup) and ownership (Publisher) results are
appended to them, and an EditionGroup anchor with 3 contained editions
and 1 generic-edge-linked edition yields 4 records. -/
theorem c2_additive_candidate_resolution :
    (∀ (st : Storage) (q : BrowseState) (resp : BrowseResponse),
      browseEditions st q = some resp →
      ∃ base rest, getBrowsedRelationships q.query st.rels = some base ∧
        resp.editions = base ++ rest) ∧
    (∀ (st : Storage) (q : BrowseState) (g : EditionGroupRow)
        (base : List BrowseRecord) (kept : List EntityProjection),
      q.modelType = some "EditionGroup" → st.editionGroupFetch = some g →
      getBrowsedRelationships q.query st.rels = some base →
      jsFilter (relationshipsFilterMethod q.query)
          (g.editions.map getEditionBasicInfo) = some kept →
      browseEditions st q =
        some ⟨q.bbid, base ++ kept.map (fun e => ⟨e, RelValue.empty⟩)⟩) ∧
    (∀ (st : Storage) (q : BrowseState)
        (base : List BrowseRecord) (kept : List EntityProjection),
      q.modelType = some "Publisher" →
      getBrowsedRelationships q.query st.rels = some base →
      jsFilter (relationshipsFilterMethod q.query)
          (st.publisherEditions.map getEditionBasicInfo) = some kept →
      browseEditions st q =
        some ⟨q.bbid, base ++ kept.map (fun e => ⟨e, RelValue.empty⟩)⟩) ∧
    (∀ (st : Storage) (q : BrowseState) (g : EditionGroupRow),
      q.modelType = some "EditionGroup" → st.editionGroupFetch = some g →
      q.format = none → q.language = none →
      (st.rels.filter (fun r => r.targetKind == "Edition")).length = 1 →
      g.editions.length = 3 →
      ∃ recs, browseEditions st q = some ⟨q.bbid, recs⟩ ∧ recs.length = 4) := by
  refine ⟨?_, ?_, ?_, ?_⟩
  · intro st q resp h
    rcases browseEditions_inv st q resp h with ⟨-, base, specials, hb, heq, -⟩
    exact ⟨base, specials, hb, heq⟩
  · intro st q g base kept hm hf hb hk
    exact browseEditions_editionGroup st q g base kept hm hf hb hk
  · intro st q base kept hm hb hk
    exact browseEditions_publisher st q base kept hm hb hk
  · intro st q g hm hf hfmt hlang hlen1 hlen3
    have hq : q.query = ⟨none, none⟩ := by
      simp [BrowseState.query, hfmt, hlang]
    have hb : getBrowsedRelationships q.query st.rels =
        some ((st.rels.filter (fun r => r.targetKind == "Edition")).map
          (fun r => ⟨getEditionBasicInfo r.target, RelValue.edge r.edge⟩)) := by
      simp only [getBrowsedRelationships]
      rw [jsFilter_of_all_true _ _ (fun x _ => by
        rw [hq]; exact relationshipsFilterMethod_no_criteria _ _ rfl rfl)]
      rfl
    have hk : jsFilter (relationshipsFilterMethod q.query)
        (g.editions.map getEditionBasicInfo) =
        some (g.editions.map getEditionBasicInfo) :=
      jsFilter_of_all_true _ _ (fun x _ => by
        rw [hq]; exact relationshipsFilterMethod_no_criteria _ _ rfl rfl)
    refine ⟨_, browseEditions_editionGroup st q g _ _ hm hf hb hk, ?_⟩
    simp [hlen1, hlen3]

/-- Witness for C2: an EditionGroup anchor with one generic-edge-linked
edition and three contained editions yields 4 records. -/
theorem c2_additive_candidate_resolution_witness :
    ∃ recs, browseEditions
        ⟨[⟨⟨"e0", none, none, none, none, some ["English"], none⟩, "Edition", ⟨4, "Rel"⟩⟩],
         some ⟨[⟨"e1", none, none, none, none, none, none⟩,
                ⟨"e2", none, none, none, none, none, none⟩,
                ⟨"e3", none, none, none, none, none, none⟩]⟩, []⟩
        ⟨some "EditionGroup", "eg-1", none, none⟩ =
      some ⟨"eg-1", recs⟩ ∧ recs.length = 4 :=
  c2_additive_candidate_resolution.2.2.2
    ⟨[⟨⟨"e0", none, none, none, none, some ["English"], none⟩, "Edition", ⟨4, "Rel"⟩⟩],
     some ⟨[⟨"e1", none, none, none, none, none, none⟩,
            ⟨"e2", none, none, none, none, none, none⟩,
            ⟨"e3", none, none, none, none, none, none⟩]⟩, []⟩
    ⟨some "EditionGroup", "eg-1", none, none⟩
    ⟨[⟨"e1", none, none, none, none, none, none⟩,
      ⟨"e2", none, none, none, none, none, none⟩,
      ⟨"e3", none, none, none, none, none, none⟩]⟩
    rfl rfl rfl rfl (by decide) (by decide)

/-- C3: every record of a successful browse response passed the same
predicate and the same projection, whichever resolver produced it, and
the special-case records all carry the synthesized empty relationship. -/
theorem c3_uniform_record_shape (st : Storage) (q : BrowseState) (resp : BrowseResponse)
    (h : browseEditions st q = some resp) :
    (∀ rec ∈ resp.editions,
      relationshipsFilterMethod q.query rec.entity = some true ∧
      ∃ ent : Entity, rec.entity = getEditionBasicInfo ent) ∧
    (∃ base specials, getBrowsedRelationships q.query st.rels = some base ∧
      resp.editions = base ++ specials ∧
      ∀ rec ∈ specials, rec.relationship = RelValue.empty) := by
  rcases browseEditions_inv st q resp h with ⟨-, base, specials, hb, heq, kept, hspec, hkept⟩
  constructor
  · intro rec hrec
    rw [heq, List.mem_append] at hrec
    rcases hrec with hrec | hrec
    · rcases getBrowsedRelationships_sound _ _ _ hb rec hrec with ⟨h1, h2, -⟩
      exact ⟨h1, h2⟩
    · rw [hspec, List.mem_map] at hrec
      rcases hrec with ⟨e, he, rfl⟩
      exact hkept e he
  · refine ⟨base, specials, hb, heq, ?_⟩
    intro rec hrec
    rw [hspec, List.mem_map] at hrec
    rcases hrec with ⟨e, he, rfl⟩
    rfl

/-- Witness for C3 at a concrete Publisher browse with one published
edition. -/
theorem c3_uniform_record_shape_witness :
    (∀ rec ∈ (⟨"p-1",
        [⟨⟨"e9", none, none, none, none, some ["English"], none⟩, RelValue.empty⟩]⟩ :
          BrowseResponse).editions,
      relationshipsFilterMethod
          (⟨some "Publisher", "p-1", none, none⟩ : BrowseState).query rec.entity = some true ∧
      ∃ ent : Entity, rec.entity = getEditionBasicInfo ent) ∧
    (∃ base specials,
      getBrowsedRelationships
          (⟨some "Publisher", "p-1", none, none⟩ : BrowseState).query
          ([] : List GenericRel) = some base ∧
      (⟨"p-1",
        [⟨⟨"e9", none, none, none, none, some ["English"], none⟩, RelValue.empty⟩]⟩ :
          BrowseResponse).editions = base ++ specials ∧
      ∀ rec ∈ specials, rec.relationship = RelValue.empty) :=
  c3_uniform_record_shape
    ⟨[], none, [⟨"e9", none, none, none, none, some ["English"], none⟩]⟩
    ⟨some "Publisher", "p-1", none, none⟩
    ⟨"p-1", [⟨⟨"e9", none, none, none, none, some ["English"], none⟩, RelValue.empty⟩]⟩
    (by decide)

/-- C4: records are emitted in resolver order — the generic-edge records
first, the special-case records appended after, with no re-sorting and
no deduplication: an entity reachable both through a generic edge and
through EditionGroup containment appears once per source. -/
theorem c4_order_and_duplication :
    (∀ (st : Storage) (q : BrowseState) (resp : BrowseResponse),
      browseEditions st q = some resp →
      ∃ base specials, getBrowsedRelationships q.query st.rels = some base ∧
        resp.editions = base ++ specials) ∧
    (∀ (ent : Entity) (ed : RelEdge) (bbid : String),
      browseEditions ⟨[⟨ent, "Edition", ed⟩], some ⟨[ent]⟩, []⟩
          ⟨some "EditionGroup", bbid, none, none⟩ =
        some ⟨bbid, [⟨getEditionBasicInfo ent, RelValue.edge ed⟩,
                     ⟨getEditionBasicInfo ent, RelValue.empty⟩]⟩) := by
  constructor
  · intro st q resp h
    rcases browseEditions_inv st q resp h with ⟨-, base, specials, hb, heq, -⟩
    exact ⟨base, specials, hb, heq⟩
  · intro ent ed bbid
    rfl

/-- Witness for C4: one concrete entity reachable both ways appears
twice, generic edge first. -/
theorem c4_order_and_duplication_witness :
    ∃ base specials,
      getBrowsedRelationships
          (⟨some "EditionGroup", "eg-7", none, none⟩ : BrowseState).query
          ([⟨⟨"e7", none, none, none, none, none, none⟩, "Edition", ⟨7, "Rel"⟩⟩] :
            List GenericRel) = some base ∧
      (⟨"eg-7",
        [⟨getEditionBasicInfo ⟨"e7", none, none, none, none, none, none⟩, RelValue.edge ⟨7, "Rel"⟩⟩,
         ⟨getEditionBasicInfo ⟨"e7", none, none, none, none, none, none⟩, RelValue.empty⟩]⟩ :
          BrowseResponse).editions = base ++ specials :=
  c4_order_and_duplication.1
    ⟨[⟨⟨"e7", none, none, none, none, none, none⟩, "Edition", ⟨7, "Rel"⟩⟩],
     some ⟨[⟨"e7", none, none, none, none, none, none⟩]⟩, []⟩
    ⟨some "EditionGroup", "eg-7", none, none⟩
    ⟨"eg-7",
      [⟨getEditionBasicInfo ⟨"e7", none, none, none, none, none, none⟩, RelValue.edge ⟨7, "Rel"⟩⟩,
       ⟨getEditionBasicInfo ⟨"e7", none, none, none, none, none, none⟩, RelValue.empty⟩]⟩
    (c4_order_and_duplication.2 ⟨"e7", none, none, none, none, none, none⟩ ⟨7, "Rel"⟩ "eg-7")

/-- C5: a successful response always echoes the request's anchor id
unchanged, and with zero related entities from every applicable source
the response is the anchor id with an empty record list. -/
theorem c5_anchor_id_passthrough :
    (∀ (st : Storage) (q : BrowseState) (resp : BrowseResponse),
      browseEditions st q = some resp → resp.bbid = q.bbid) ∧
    (∀ (st : Storage) (q : BrowseState),
      st.rels.filter (fun r => r.targetKind == "Edition") = [] →
      (q.modelType = some "EditionGroup" → st.editionGroupFetch = some ⟨[]⟩) →
      (q.modelType = some "Publisher" → st.publisherEditions = []) →
      browseEditions st q = some ⟨q.bbid, []⟩) := by
  constructor
  · intro st q resp h
    exact (browseEditions_inv st q resp h).1
  · intro st q hrels hEg hPub
    have hb : getBrowsedRelationships q.query st.rels = some [] := by
      simp [getBrowsedRelationships, hrels, jsFilter]
    by_cases hm : q.modelType = some "EditionGroup"
    · have := browseEditions_editionGroup st q ⟨[]⟩ [] [] hm (hEg hm) hb rfl
      simpa using this
    by_cases hp : q.modelType = some "Publisher"
    · have hk : jsFilter (relationshipsFilterMethod q.query)
          (st.publisherEditions.map getEditionBasicInfo) = some [] := by
        rw [hPub hp]
        rfl
      have := browseEditions_publisher st q [] [] hp hb hk
      simpa using this
    · exact browseEditions_generic_only st q [] hm hp hb

/-- Witness for C5: an anchor with no related entities at all. -/
theorem c5_anchor_id_passthrough_witness :
    browseEditions ⟨[], none, []⟩ ⟨some "Work", "w-1", none, none⟩ =
      some ⟨(⟨some "Work", "w-1", none, none⟩ : BrowseState).bbid, []⟩ :=
  c5_anchor_id_passthrough.2 ⟨[], none, []⟩ ⟨some "Work", "w-1", none, none⟩
    rfl (by decide) (by decide)

/-- C9: when the EditionGroup point-in-time fetch returns no row, the
handler destructures `editions` out of `{}` and calls `.map` on
`undefined`: the whole browse throws instead of contributing an empty
result set, whatever the rest of the state holds. -/
theorem c9_editiongroup_fetch_miss_throws (st : Storage) (q : BrowseState)
    (hm : q.modelType = some "EditionGroup")
    (hf : st.editionGroupFetch = none) :
    browseEditions st q = none := by
  rcases hb : getBrowsedRelationships q.query st.rels with _ | base
  · simp [browseEditions, hb]
  · simp [browseEditions, hb, hm, hf]

/-- Witness for C9: an EditionGroup anchor whose group row is absent. -/
theorem c9_editiongroup_fetch_miss_throws_witness :
    browseEditions ⟨[], none, []⟩ ⟨some "EditionGroup", "eg-1", none, none⟩ = none :=
  c9_editiongroup_fetch_miss_throws ⟨[], none, []⟩
    ⟨some "EditionGroup", "eg-1", none, none⟩ rfl rfl
